import Mathlib

/-!
# Verification of the WhatsApp-X number generator core

Shallow embedding of `src/utils` (`validatePattern`, `generatePhoneNumbers`)
and theorems settling the specification claims about it.

Modelling decisions (all noted at the definition they concern):
* `Math.random()` digit draws are modelled by an explicit oracle
  `rng : Nat → Nat`; draw number `i` yields the digit `rng i % 10`,
  which covers every possible sequence of `Math.floor(Math.random()*10)`
  results.  The draw index is threaded through the computation in the
  order the source consumes draws.
* The JavaScript `Set<string>` is modelled by `Finset String`
  (membership, insertion and `size` are the only operations used).
* The JavaScript `number` values `count` and the derived
  `remainingPossibilities` / `targetCount` / `maxAttempts` are integers
  in every reachable state, so they are modelled by `Int`
  (`Math.max`, `Math.min` become `max`, `min` on `Int`).
* `repetitionDensity` is a slider value in `[0,1]`; it is modelled by
  `Rat`.  The only float expressions, `Math.ceil(numUnknowns * 0.35)`
  and `Math.ceil(numUnknowns * 0.6)`, are modelled by exact rational
  ceilings, written as the `Nat` divisions `(n*35+99)/100` and
  `(n*60+99)/100`; for every `numUnknowns ≤ 10` (any pattern of length
  10) these agree with the IEEE-754 evaluation in the source.
-/

/-- Structure `GeneratedContact` from `src/types.ts` (`isSaved` is set by the
generator, so it is not optional here). -/
structure GeneratedContact where
  id : String
  number : String
  name : String
  isSaved : Bool
deriving DecidableEq, Repr

/-- Structure `GenerationConfig` from `src/types.ts`; `count : number` is an integer
in all uses, modelled by `Int`. -/
structure GenerationConfig where
  pattern : String
  count : Int
  contactNamePrefix : String

/-- Structure `GenerationOptions` from `src/types.ts`; `repetitionDensity` is a
real slider value in `[0,1]`, modelled exactly by `Rat`. -/
structure GenerationOptions where
  repetitionDensity : Rat

/-! ## Validator (`validatePattern`) -/

/-- The four failure classes of `validatePattern`, each carrying the data
that the corresponding source message string interpolates.  `renderError`
below maps each constructor to the exact message of the source, and
`validatePattern` is the composition, so nothing is abstracted away. -/
inductive ValidationError where
  | emptyInput : ValidationError
  | invalidLength (actual : Nat) : ValidationError
  | invalidCharacters (chars : List Char) : ValidationError
  | noVariableSlots : ValidationError
deriving DecidableEq, Repr

/-- A character allowed by the source regex `[^0-9_]` (i.e. NOT matched
by it): a decimal digit or the underscore wildcard. -/
def isAllowedChar (c : Char) : Bool := c.isDigit || c == '_'

/-- Deduplication keeping the first occurrence of each element, in order:
the semantics of `Array.from(new Set(xs))` on the match list. -/
def firstDedup : List Char → List Char
  | [] => []
  | c :: cs => c :: firstDedup (cs.filter (fun x => x ≠ c))
termination_by l => l.length
decreasing_by
  simp only [List.length_cons]
  exact Nat.lt_succ_of_le (List.length_filter_le _ _)

/-- All characters of `p` matched by the regex `[^0-9_]`, in order with
multiplicity: the semantics of `pattern.match(/[^0-9_]/g)` (the source
gets `null` exactly when this list is empty). -/
def invalidCharsOf (p : String) : List Char :=
  p.toList.filter (fun c => !(isAllowedChar c))

/-- The checks of `validatePattern` (src/utils, lines 23–44), in source
order with short-circuiting, returning the error class instead of the
rendered message.  `!pattern` in JS is true exactly for the empty
string. -/
def validateKind (pattern : String) : Option ValidationError :=
  if pattern.length = 0 then some .emptyInput
  else if pattern.length ≠ 10 then some (.invalidLength pattern.length)
  else if invalidCharsOf pattern ≠ [] then
    some (.invalidCharacters (firstDedup (invalidCharsOf pattern)))
  else if !(pattern.toList.contains '_') then some .noVariableSlots
  else none

/-- The exact user-facing message the source builds for each error class
(template-literal interpolation becomes string concatenation). -/
def renderError : ValidationError → String
  | .emptyInput => "يرجى إدخال نمط الرقم."
  | .invalidLength actual =>
      "طول النمط غير صحيح (" ++ toString actual ++
        "/10). يجب أن يتكون من 10 خانات بالضبط."
  | .invalidCharacters chars =>
      "النمط يحتوي على رموز غير مسموحة: [ " ++
        String.intercalate " " (chars.map (fun c => String.mk [c])) ++
        " ]. يرجى استخدام الأرقام والرمز (_) فقط."
  | .noVariableSlots =>
      "لا توجد خانات مجهولة للتوليد. يرجى استخدام الرمز (_) لتحديد الخانات المتغيرة."

/-- Function `validatePattern` from the source: the second parameter `options?` is
accepted and unused, exactly as in the source. -/
def validatePattern (pattern : String) (options : Option GenerationOptions) :
    Option String :=
  let _ := options
  (validateKind pattern).map renderError

/-! ## Generator (`generatePhoneNumbers`) -/

/-- The three constraint parameters chosen from the density slider
(src/utils, "Constraint Configuration" block). -/
structure ConstraintProfile where
  maxDigitFreq : Nat
  allowAdjacentDuplicates : Bool
  allowSequences : Bool
deriving DecidableEq, Repr

/-- The tier selection from the density value (`density <= 0.4` strict,
`<= 0.7` balanced, else loose).  `(n*35+99)/100 = ⌈n*0.35⌉` and
`(n*60+99)/100 = ⌈n*0.6⌉` exactly, agreeing with the float evaluation
for every `n ≤ 10`. -/
def constraintProfile (density : Rat) (numUnknowns : Nat) : ConstraintProfile :=
  if density ≤ mkRat 4 10 then
    { maxDigitFreq := max 2 ((numUnknowns * 35 + 99) / 100)
      allowAdjacentDuplicates := false
      allowSequences := false }
  else if density ≤ mkRat 7 10 then
    { maxDigitFreq := max 2 ((numUnknowns * 60 + 99) / 100)
      allowAdjacentDuplicates := decide (density > mkRat 55 100)
      allowSequences := decide (density > mkRat 55 100) }
  else
    { maxDigitFreq := numUnknowns
      allowAdjacentDuplicates := true
      allowSequences := true }

/-- The density default: `options?.repetitionDensity ?? 0.3`. -/
def densityOf : Option GenerationOptions → Rat
  | some o => o.repetitionDensity
  | none => mkRat 3 10

/-- The adjacency rejection (check 2 of the slot loop): active only when
adjacent duplicates are disallowed and a previous generated digit exists
(`k > 0`); compares with `candidateDigits[k-1]` only.  `rcand` is the
list of already placed candidate digits, most recent first. -/
def adjacentReject (allowAdj : Bool) (rcand : List Nat) (d : Nat) : Bool :=
  !allowAdj &&
    (match rcand with
     | p1 :: _ => d == p1
     | [] => false)

/-- The sequence rejection (check 3 of the slot loop): active only when
runs are disallowed and two previous digits exist (`k > 1`); the source
compares JS numbers, where `d1 - 1` can be `-1`, so the comparison is
over `Int`. -/
def sequenceReject (allowSeq : Bool) (rcand : List Nat) (d : Nat) : Bool :=
  !allowSeq &&
    (match rcand with
     | d2 :: d1 :: _ =>
         ((d2 : Int) == (d1 : Int) + 1 && (d : Int) == (d2 : Int) + 1) ||
         ((d2 : Int) == (d1 : Int) - 1 && (d : Int) == (d2 : Int) - 1)
     | _ => false)

/-- The inner retry loop (`for retry ... < 20`): draw a digit, apply the
frequency, adjacency and sequence checks in order, retry on rejection.
Returns the accepted digit (or `none` after `retry` draws all fail) and
the next unused draw index.  `digitCounts[d]` in the source always equals
the number of times `d` occurs among the placed digits, i.e.
`rcand.count d`. -/
def pickDigit (rng : Nat → Nat) (prof : ConstraintProfile) (rcand : List Nat) :
    Nat → Nat → Option Nat × Nat
  | ridx, 0 => (none, ridx)
  | ridx, retry + 1 =>
    let d := rng ridx % 10
    if prof.maxDigitFreq ≤ rcand.count d then
      pickDigit rng prof rcand (ridx + 1) retry
    else if adjacentReject prof.allowAdjacentDuplicates rcand d then
      pickDigit rng prof rcand (ridx + 1) retry
    else if sequenceReject prof.allowSequences rcand d then
      pickDigit rng prof rcand (ridx + 1) retry
    else
      (some d, ridx + 1)

/-- The slot loop (`for k ... < numUnknowns`): fill the given number of
slots left to right, abandoning the whole candidate when a slot finds no
valid digit in 20 draws.  `rcand` accumulates placed digits most recent
first; the successful result is returned in slot order. -/
def fillSlots (rng : Nat → Nat) (prof : ConstraintProfile) :
    Nat → List Nat → Nat → Option (List Nat) × Nat
  | 0, rcand, ridx => (some rcand.reverse, ridx)
  | n + 1, rcand, ridx =>
    match pickDigit rng prof rcand ridx 20 with
    | (some d, ridx1) => fillSlots rng prof n (d :: rcand) ridx1
    | (none, ridx1) => (none, ridx1)

/-- Splicing the candidate digits into the wildcard positions of the
pattern, in order: the semantics of the `missingIndices.forEach`
assignment into `pattern.split('')` followed by `join('')`.  A candidate
always has exactly one digit per wildcard, so the defensive `[]` branch
is never reached on reachable inputs. -/
def splice : List Char → List Nat → List Char
  | [], _ => []
  | c :: ps, d :: ds1 =>
    if c = '_' then Nat.digitChar d :: splice ps ds1 else c :: splice ps (d :: ds1)
  | c :: ps, [] => c :: splice ps []

/-- Source `missingIndices.length`: the number of wildcard slots of the
pattern. -/
def numUnknownsOf (pattern : String) : Nat := pattern.toList.count '_'

/-- Source `Math.min(count, Math.max(0, 10^numUnknowns - excludeSet.size))`. -/
def targetCountOf (config : GenerationConfig) (excludeSet : Finset String) : Int :=
  min config.count
    (max 0 ((10 : Int) ^ numUnknownsOf config.pattern - excludeSet.card))

/-- Source `targetCount * 200 + 5000`. -/
def maxAttemptsOf (config : GenerationConfig) (excludeSet : Finset String) : Int :=
  targetCountOf config excludeSet * 200 + 5000

/-- The per-call parameters of the generation loop. -/
structure GenCtx where
  rng : Nat → Nat
  pattern : String
  namePrefix : String
  initialSize : Nat
  numUnknowns : Nat
  prof : ConstraintProfile
  targetCount : Int
  maxAttempts : Int

/-- The mutable state of the generation loop: the accepted entities, the
working set (`generatedSet`), the attempt counter and the next unused
draw index. -/
structure GenState where
  results : List GeneratedContact
  generated : Finset String
  attempts : Nat
  ridx : Nat

/-- One iteration of the `while` body: increment `attempts`, build a
candidate slot by slot, abandon it on structural failure, otherwise
splice it into the pattern and accept it when it is new to the working
set, assigning the provisional id `initialSize + results.length + 1`. -/
def genStep (ctx : GenCtx) (st : GenState) : GenState :=
  match fillSlots ctx.rng ctx.prof ctx.numUnknowns [] st.ridx with
  | (none, ridx1) => { st with attempts := st.attempts + 1, ridx := ridx1 }
  | (some ds, ridx1) =>
    let numberStr := String.mk (splice ctx.pattern.toList ds)
    if numberStr ∈ st.generated then
      { st with attempts := st.attempts + 1, ridx := ridx1 }
    else
      { st with
        attempts := st.attempts + 1
        ridx := ridx1
        generated := insert numberStr st.generated
        results := st.results ++
          [{ id := toString (ctx.initialSize + st.results.length + 1)
             number := numberStr
             name := ctx.namePrefix
             isSaved := false }] }

/-- The `while (results.length < targetCount && attempts < maxAttempts)`
loop.  `fuel` only bounds the recursion depth for Lean; the loop guard is
the source's own, and the fuel passed by `genRun` is shown sufficient
(`genLoop_fuel_add`), so the function is fuel-independent beyond it. -/
def genLoop (ctx : GenCtx) : Nat → GenState → GenState
  | 0, st => st
  | fuel + 1, st =>
    if (st.results.length : Int) < ctx.targetCount ∧
        (st.attempts : Int) < ctx.maxAttempts then
      genLoop ctx fuel (genStep ctx st)
    else st

/-- The context `generatePhoneNumbers` sets up before its loop. -/
def mkCtx (config : GenerationConfig) (options : Option GenerationOptions)
    (excludeSet : Finset String) (rng : Nat → Nat) : GenCtx :=
  { rng := rng
    pattern := config.pattern
    namePrefix := config.contactNamePrefix
    initialSize := excludeSet.card
    numUnknowns := numUnknownsOf config.pattern
    prof := constraintProfile (densityOf options) (numUnknownsOf config.pattern)
    targetCount := targetCountOf config excludeSet
    maxAttempts := maxAttemptsOf config excludeSet }

/-- The loop part of `generatePhoneNumbers`: run from the empty result
list, the working set seeded with the exclusion set, and counters at 0. -/
def genRun (config : GenerationConfig) (options : Option GenerationOptions)
    (excludeSet : Finset String) (rng : Nat → Nat) : GenState :=
  genLoop (mkCtx config options excludeSet rng)
    (maxAttemptsOf config excludeSet).toNat
    { results := [], generated := excludeSet, attempts := 0, ridx := 0 }

/-- Function `generatePhoneNumbers` (src/utils, lines 36–190): the loop followed
by `results.sort((a, b) => a.number.localeCompare(b.number))`; on the
pure-digit strings produced here `localeCompare` is the lexicographic
order on characters, i.e. `String.le`. -/
def generatePhoneNumbers (config : GenerationConfig)
    (options : Option GenerationOptions) (excludeSet : Finset String)
    (rng : Nat → Nat) : List GeneratedContact :=
  ((genRun config options excludeSet rng).results).mergeSort
    (fun a b => decide (a.number ≤ b.number))

/-- Function `generateVCF` from `src/utils/vcf.ts`: serialize the contacts into
the card-per-entry text block. -/
def generateVCF (contacts : List GeneratedContact) : String :=
  contacts.foldl
    (fun vcfContent contact =>
      vcfContent ++ "BEGIN:VCARD\n" ++ "VERSION:3.0\n" ++
        "N:;" ++ contact.name ++ ";;;\n" ++
        "FN:" ++ contact.name ++ "\n" ++
        "TEL;TYPE=CELL:" ++ contact.number ++ "\n" ++
        "END:VCARD\n")
    ""

/-! ## Basic lemmas about the validator pieces -/

theorem mem_of_mem_firstDedup : ∀ (l : List Char) (a : Char), a ∈ firstDedup l → a ∈ l
  | [], _, h => by rw [firstDedup] at h; exact absurd h (List.not_mem_nil _)
  | c :: cs, a, h => by
    rw [firstDedup] at h
    rcases List.mem_cons.mp h with h | h
    · exact h ▸ List.mem_cons_self _ _
    · exact List.mem_cons_of_mem _ (List.mem_of_mem_filter (mem_of_mem_firstDedup _ _ h))
termination_by l => l.length
decreasing_by
  simp only [List.length_cons]
  exact Nat.lt_succ_of_le (List.length_filter_le _ _)

theorem firstDedup_nodup : ∀ l : List Char, (firstDedup l).Nodup
  | [] => by rw [firstDedup]; exact List.nodup_nil
  | c :: cs => by
    rw [firstDedup]
    refine List.nodup_cons.mpr ⟨?_, firstDedup_nodup _⟩
    intro hmem
    have : c ∈ (cs.filter (fun x => x ≠ c)) := mem_of_mem_firstDedup _ _ hmem
    simp at this
termination_by l => l.length
decreasing_by
  simp only [List.length_cons]
  exact Nat.lt_succ_of_le (List.length_filter_le _ _)

theorem mem_firstDedup_of_mem : ∀ (l : List Char) (a : Char), a ∈ l → a ∈ firstDedup l
  | [], _, h => absurd h (List.not_mem_nil _)
  | c :: cs, a, h => by
    rw [firstDedup]
    rcases List.mem_cons.mp h with h | h
    · exact h ▸ List.mem_cons_self _ _
    · by_cases hac : a = c
      · exact hac ▸ List.mem_cons_self _ _
      · exact List.mem_cons_of_mem _
          (mem_firstDedup_of_mem (cs.filter (fun x => x ≠ c)) a
            (List.mem_filter.mpr ⟨h, by simp [hac]⟩))
termination_by l => l.length
decreasing_by
  simp only [List.length_cons]
  exact Nat.lt_succ_of_le (List.length_filter_le _ _)

theorem mem_firstDedup (l : List Char) (a : Char) : a ∈ firstDedup l ↔ a ∈ l :=
  ⟨mem_of_mem_firstDedup l a, mem_firstDedup_of_mem l a⟩

/-! ## Lemmas about `splice` -/

theorem splice_length : ∀ (ps : List Char) (ds : List Nat),
    (splice ps ds).length = ps.length
  | [], _ => rfl
  | c :: ps, [] => by
    rw [splice]
    simp [splice_length ps []]
  | c :: ps, d :: ds1 => by
    rw [splice]
    by_cases hc : c = '_'
    · simp [if_pos hc, splice_length ps ds1]
    · simp [if_neg hc, splice_length ps (d :: ds1)]

theorem splice_get?_of_fixed : ∀ (ps : List Char) (ds : List Nat) (i : Nat) (c' : Char),
    ps.get? i = some c' → c' ≠ '_' → (splice ps ds).get? i = some c'
  | [], _, i, _, h, _ => by simp at h
  | c :: ps, ds, 0, c', h, hne => by
    simp only [List.get?] at h
    injection h with h
    subst h
    cases ds with
    | nil => rw [splice]; rfl
    | cons d ds1 => rw [splice, if_neg hne]; rfl
  | c :: ps, ds, i + 1, c', h, hne => by
    simp only [List.get?] at h
    cases ds with
    | nil =>
      rw [splice]
      exact splice_get?_of_fixed ps [] i c' h hne
    | cons d ds1 =>
      rw [splice]
      by_cases hc : c = '_'
      · rw [if_pos hc]
        exact splice_get?_of_fixed ps ds1 i c' h hne
      · rw [if_neg hc]
        exact splice_get?_of_fixed ps (d :: ds1) i c' h hne

/-- The characters a value carries at the wildcard positions of the
pattern, in template order. -/
def wildcardChars (ps cs : List Char) : List Char :=
  (ps.zip cs).filterMap (fun pc => if pc.1 = '_' then some pc.2 else none)

theorem wildcardChars_splice : ∀ (ps : List Char) (ds : List Nat),
    ds.length = ps.count '_' →
    wildcardChars ps (splice ps ds) = ds.map Nat.digitChar
  | [], ds, h => by
    simp only [List.count_nil, List.length_eq_zero] at h
    subst h
    rfl
  | c :: ps, ds, h => by
    by_cases hc : c = '_'
    · subst hc
      rw [List.count_cons_self] at h
      cases ds with
      | nil => simp at h
      | cons d ds1 =>
        simp only [List.length_cons, Nat.add_right_cancel_iff] at h
        rw [splice, if_pos rfl]
        simp only [wildcardChars, List.zip_cons_cons, List.filterMap_cons, if_pos rfl,
          List.map_cons]
        exact congrArg _ (wildcardChars_splice ps ds1 h)
    · rw [List.count_cons_of_ne (fun hh => hc hh.symm)] at h
      cases ds with
      | nil =>
        rw [splice]
        simp only [wildcardChars, List.zip_cons_cons, List.filterMap_cons, if_neg hc]
        exact wildcardChars_splice ps [] h
      | cons d ds1 =>
        rw [splice, if_neg hc]
        simp only [wildcardChars, List.zip_cons_cons, List.filterMap_cons, if_neg hc]
        exact wildcardChars_splice ps (d :: ds1) h

theorem digitChar_inj : ∀ a, a < 10 → ∀ b, b < 10 →
    Nat.digitChar a = Nat.digitChar b → a = b := by decide

theorem count_map_digitChar (ds : List Nat) (m : Nat)
    (hb : ∀ d ∈ ds, d < 10) (hc : ∀ d, ds.count d ≤ m) :
    ∀ ch : Char, (ds.map Nat.digitChar).count ch ≤ m := by
  intro ch
  rw [List.count, List.countP_map]
  by_cases hex : ∃ d0, d0 ∈ ds ∧ Nat.digitChar d0 = ch
  · rcases hex with ⟨d0, hd0m, hd0e⟩
    have : List.countP ((· == ch) ∘ Nat.digitChar) ds = List.countP (· == d0) ds := by
      apply List.countP_congr
      intro a ha
      simp only [Function.comp_apply, beq_iff_eq]
      constructor
      · intro h
        exact digitChar_inj a (hb a ha) d0 (hb d0 hd0m) (h.trans hd0e.symm)
      · intro h
        exact h ▸ hd0e
    rw [this]
    exact hc d0
  · push_neg at hex
    have : List.countP ((· == ch) ∘ Nat.digitChar) ds = 0 := by
      rw [List.countP_eq_zero]
      intro a ha
      simp only [Function.comp_apply, beq_iff_eq]
      exact hex a ha
    omega

theorem chain_ne_map_digitChar : ∀ ds : List Nat, (∀ d ∈ ds, d < 10) →
    ds.Chain' (· ≠ ·) → (ds.map Nat.digitChar).Chain' (· ≠ ·)
  | [], _, _ => List.chain'_nil
  | [d], _, _ => List.chain'_singleton _
  | a :: b :: t, hb, hc => by
    rw [List.chain'_cons] at hc
    simp only [List.map_cons]
    rw [List.chain'_cons]
    refine ⟨?_, ?_⟩
    · intro heq
      exact hc.1 (digitChar_inj a (hb a (by simp)) b (hb b (by simp)) heq)
    · have := chain_ne_map_digitChar (b :: t) (fun d hd => hb d (List.mem_cons_of_mem _ hd)) hc.2
      simpa using this

/-! ## Candidate construction invariants -/

/-- The local constraints every accepted candidate digit list satisfies
(in slot order): no digit above the frequency cap, no adjacent duplicate
slots when disallowed, every entry an actual digit. -/
def CandOK (prof : ConstraintProfile) (ds : List Nat) : Prop :=
  (∀ d, ds.count d ≤ prof.maxDigitFreq) ∧
  (prof.allowAdjacentDuplicates = false → ds.Chain' (· ≠ ·)) ∧
  (∀ d ∈ ds, d < 10)

theorem pickDigit_spec (rng : Nat → Nat) (prof : ConstraintProfile) (rcand : List Nat) :
    ∀ retry ridx d i', pickDigit rng prof rcand ridx retry = (some d, i') →
      d < 10 ∧ rcand.count d < prof.maxDigitFreq ∧
      (prof.allowAdjacentDuplicates = false → ∀ p1 ∈ rcand.head?, d ≠ p1) := by
  intro retry
  induction retry with
  | zero =>
    intro ridx d i' h
    rw [pickDigit] at h
    exact absurd (congrArg Prod.fst h) (by simp)
  | succ n ih =>
    intro ridx d i' h
    rw [pickDigit] at h
    by_cases h1 : prof.maxDigitFreq ≤ rcand.count (rng ridx % 10)
    · rw [if_pos h1] at h
      exact ih _ _ _ h
    · rw [if_neg h1] at h
      by_cases h2 : adjacentReject prof.allowAdjacentDuplicates rcand (rng ridx % 10) = true
      · rw [if_pos h2] at h
        exact ih _ _ _ h
      · rw [if_neg h2] at h
        by_cases h3 : sequenceReject prof.allowSequences rcand (rng ridx % 10) = true
        · rw [if_pos h3] at h
          exact ih _ _ _ h
        · rw [if_neg h3] at h
          have hd : rng ridx % 10 = d := by
            have := congrArg Prod.fst h
            simpa using this
          subst hd
          refine ⟨Nat.mod_lt _ (by omega), by omega, ?_⟩
          intro hadj p1 hp1
          intro hdp
          apply h2
          rw [adjacentReject.eq_def, hadj]
          cases rcand with
          | nil => simp at hp1
          | cons q t =>
            simp only [List.head?_cons, Option.mem_def, Option.some.injEq] at hp1
            subst hp1
            simp [hdp]

/-- The invariant of the partially built candidate, most recent digit
first. -/
def RcandOK (prof : ConstraintProfile) (rc : List Nat) : Prop :=
  (∀ d, rc.count d ≤ prof.maxDigitFreq) ∧
  (prof.allowAdjacentDuplicates = false → rc.Chain' (· ≠ ·)) ∧
  (∀ d ∈ rc, d < 10)

theorem rcandOK_cons (rng : Nat → Nat) (prof : ConstraintProfile) (rcand : List Nat)
    (retry ridx d i' : Nat) (hp : pickDigit rng prof rcand ridx retry = (some d, i'))
    (hr : RcandOK prof rcand) : RcandOK prof (d :: rcand) := by
  obtain ⟨hd10, hcnt, hadj⟩ := pickDigit_spec rng prof rcand retry ridx d i' hp
  refine ⟨?_, ?_, ?_⟩
  · intro e
    have h1 := hr.1 e
    rw [List.count_cons]
    split
    · rename_i heq
      have heq2 : d = e := by simpa using heq
      subst heq2
      omega
    · omega
  · intro hfalse
    rw [List.chain'_cons']
    exact ⟨fun y hy => hadj hfalse y hy, hr.2.1 hfalse⟩
  · intro e he
    rcases List.mem_cons.mp he with he | he
    · exact he ▸ hd10
    · exact hr.2.2 e he

theorem fillSlots_spec (rng : Nat → Nat) (prof : ConstraintProfile) :
    ∀ (n : Nat) (rcand : List Nat) (ridx : Nat) (ds : List Nat) (i' : Nat),
      fillSlots rng prof n rcand ridx = (some ds, i') → RcandOK prof rcand →
      ∃ rc', ds = rc'.reverse ∧ RcandOK prof rc' ∧ rc'.length = rcand.length + n := by
  intro n
  induction n with
  | zero =>
    intro rcand ridx ds i' h hr
    rw [fillSlots] at h
    injection h with h1 _
    injection h1 with h1
    exact ⟨rcand, h1.symm, hr, rfl⟩
  | succ n ih =>
    intro rcand ridx ds i' h hr
    rw [fillSlots] at h
    rcases hp : pickDigit rng prof rcand ridx 20 with ⟨od, ridx1⟩
    rw [hp] at h
    cases od with
    | none => simp at h
    | some d =>
      obtain ⟨rc', h1, h2, h3⟩ := ih (d :: rcand) ridx1 ds i' h
        (rcandOK_cons rng prof rcand 20 ridx d ridx1 hp hr)
      exact ⟨rc', h1, h2, by simp at h3; omega⟩

theorem fillSlots_candOK (rng : Nat → Nat) (prof : ConstraintProfile)
    (n ridx : Nat) (ds : List Nat) (i' : Nat)
    (h : fillSlots rng prof n [] ridx = (some ds, i')) :
    CandOK prof ds ∧ ds.length = n := by
  obtain ⟨rc', h1, h2, h3⟩ := fillSlots_spec rng prof n [] ridx ds i' h
    ⟨fun d => by simp, fun _ => List.chain'_nil, fun d hd => absurd hd (List.not_mem_nil _)⟩
  subst h1
  refine ⟨⟨?_, ?_, ?_⟩, by simpa using h3⟩
  · intro d
    rw [List.count_reverse]
    exact h2.1 d
  · intro hfalse
    rw [List.chain'_reverse]
    exact List.Chain'.imp (fun a b h => Ne.symm h) (h2.2.1 hfalse)
  · intro d hd
    exact h2.2.2 d (List.mem_reverse.mp hd)

/-! ## Step and loop lemmas -/

theorem genStep_attempts (ctx : GenCtx) (st : GenState) :
    (genStep ctx st).attempts = st.attempts + 1 := by
  unfold genStep
  split
  · rfl
  · dsimp only
    split
    · rfl
    · rfl

theorem genStep_cases (ctx : GenCtx) (st : GenState) :
    ((genStep ctx st).results = st.results ∧ (genStep ctx st).generated = st.generated) ∨
    (∃ ds, CandOK ctx.prof ds ∧ ds.length = ctx.numUnknowns ∧
      String.mk (splice ctx.pattern.toList ds) ∉ st.generated ∧
      (genStep ctx st).results = st.results ++
        [{ id := toString (ctx.initialSize + st.results.length + 1)
           number := String.mk (splice ctx.pattern.toList ds)
           name := ctx.namePrefix
           isSaved := false }] ∧
      (genStep ctx st).generated =
        insert (String.mk (splice ctx.pattern.toList ds)) st.generated) := by
  rcases hfs : fillSlots ctx.rng ctx.prof ctx.numUnknowns [] st.ridx with ⟨ods, ridx1⟩
  cases ods with
  | none =>
    left
    constructor
    · simp only [genStep, hfs]
    · simp only [genStep, hfs]
  | some ds =>
    obtain ⟨hok, hlen⟩ := fillSlots_candOK ctx.rng ctx.prof ctx.numUnknowns st.ridx ds ridx1 hfs
    by_cases hmem : String.mk (splice ctx.pattern.toList ds) ∈ st.generated
    · left
      constructor
      · simp only [genStep, hfs]
        rw [if_pos hmem]
      · simp only [genStep, hfs]
        rw [if_pos hmem]
    · right
      refine ⟨ds, hok, hlen, hmem, ?_, ?_⟩
      · simp only [genStep, hfs]
        rw [if_neg hmem]
      · simp only [genStep, hfs]
        rw [if_neg hmem]

theorem genStep_length (ctx : GenCtx) (st : GenState) :
    (genStep ctx st).results.length ≤ st.results.length + 1 := by
  rcases genStep_cases ctx st with ⟨h, _⟩ | ⟨ds, _, _, _, h, _⟩
  · rw [h]; omega
  · rw [h]; simp

/-- The loop invariant carrying everything the claims need about the
accepted entities and the working set. -/
def LoopInv (ctx : GenCtx) (excludeSet : Finset String) (st : GenState) : Prop :=
  excludeSet ⊆ st.generated ∧
  (∀ c ∈ st.results, c.number ∈ st.generated) ∧
  (st.results.map GeneratedContact.number).Nodup ∧
  (∀ c ∈ st.results, c.number ∉ excludeSet) ∧
  (∀ c ∈ st.results,
     ∃ ds, ds.length = ctx.numUnknowns ∧ CandOK ctx.prof ds ∧
       c.number = String.mk (splice ctx.pattern.toList ds)) ∧
  st.results.map GeneratedContact.id =
    (List.range st.results.length).map (fun i => toString (ctx.initialSize + i + 1))

theorem genStep_inv (ctx : GenCtx) (excludeSet : Finset String) (st : GenState)
    (h : LoopInv ctx excludeSet st) : LoopInv ctx excludeSet (genStep ctx st) := by
  obtain ⟨hsub, hmemg, hnd, hnex, hform, hids⟩ := h
  rcases genStep_cases ctx st with ⟨hr, hg⟩ | ⟨ds, hok, hlen, hnew, hr, hg⟩
  · exact ⟨hg ▸ hsub, by rw [hr, hg]; exact hmemg, by rw [hr]; exact hnd,
      by rw [hr]; exact hnex, by rw [hr]; exact hform, by rw [hr]; exact hids⟩
  · set num := String.mk (splice ctx.pattern.toList ds) with hnum
    refine ⟨?_, ?_, ?_, ?_, ?_, ?_⟩
    · rw [hg]
      exact hsub.trans (Finset.subset_insert _ _)
    · rw [hr, hg]
      intro c hc
      rcases List.mem_append.mp hc with hc | hc
      · exact Finset.mem_insert_of_mem (hmemg c hc)
      · simp only [List.mem_singleton] at hc
        subst hc
        exact Finset.mem_insert_self _ _
    · rw [hr]
      rw [List.map_append, List.nodup_append]
      refine ⟨hnd, List.nodup_singleton _, ?_⟩
      intro a ha hb
      simp only [List.map_cons, List.map_nil, List.mem_singleton] at hb
      subst hb
      rcases List.mem_map.mp ha with ⟨c, hc, hcn⟩
      exact hnew (hcn ▸ hmemg c hc)
    · rw [hr]
      intro c hc
      rcases List.mem_append.mp hc with hc | hc
      · exact hnex c hc
      · simp only [List.mem_singleton] at hc
        subst hc
        exact fun hmem => hnew (hsub hmem)
    · rw [hr]
      intro c hc
      rcases List.mem_append.mp hc with hc | hc
      · exact hform c hc
      · simp only [List.mem_singleton] at hc
        subst hc
        exact ⟨ds, hlen, hok, rfl⟩
    · rw [hr]
      rw [List.map_append, List.length_append]
      simp only [List.map_cons, List.map_nil, List.length_cons, List.length_nil]
      rw [List.range_succ, List.map_append, hids]
      rfl

theorem genLoop_inv (ctx : GenCtx) (excludeSet : Finset String) :
    ∀ (fuel : Nat) (st : GenState), LoopInv ctx excludeSet st →
      LoopInv ctx excludeSet (genLoop ctx fuel st) := by
  intro fuel
  induction fuel with
  | zero => intro st h; rw [genLoop]; exact h
  | succ n ih =>
    intro st h
    rw [genLoop]
    split
    · exact ih _ (genStep_inv ctx excludeSet st h)
    · exact h

theorem genLoop_length (ctx : GenCtx) :
    ∀ (fuel : Nat) (st : GenState),
      (st.results.length : Int) ≤ max 0 ctx.targetCount →
      ((genLoop ctx fuel st).results.length : Int) ≤ max 0 ctx.targetCount := by
  intro fuel
  induction fuel with
  | zero => intro st h; rw [genLoop]; exact h
  | succ n ih =>
    intro st h
    rw [genLoop]
    split
    · rename_i hguard
      apply ih
      have := genStep_length ctx st
      have h1 := hguard.1
      omega
    · exact h

theorem genLoop_attempts (ctx : GenCtx) :
    ∀ (fuel : Nat) (st : GenState),
      (genLoop ctx fuel st).attempts ≤ max st.attempts ctx.maxAttempts.toNat := by
  intro fuel
  induction fuel with
  | zero => intro st; rw [genLoop]; omega
  | succ n ih =>
    intro st
    rw [genLoop]
    split
    · rename_i hguard
      have h1 := hguard.2
      have h2 := ih (genStep ctx st)
      rw [genStep_attempts] at h2
      omega
    · omega

theorem genLoop_of_target_nonpos (ctx : GenCtx) (hT : ctx.targetCount ≤ 0)
    (fuel : Nat) (g : Finset String) (a r : Nat) :
    genLoop ctx fuel { results := [], generated := g, attempts := a, ridx := r } =
      { results := [], generated := g, attempts := a, ridx := r } := by
  cases fuel with
  | zero => rw [genLoop]
  | succ n =>
    rw [genLoop]
    rw [if_neg]
    intro hguard
    have := hguard.1
    simp only [List.length_nil, Int.natCast_zero] at this
    omega

theorem genLoop_succ_eq (ctx : GenCtx) :
    ∀ (fuel : Nat) (st : GenState),
      (ctx.maxAttempts - st.attempts).toNat ≤ fuel →
      genLoop ctx (fuel + 1) st = genLoop ctx fuel st := by
  intro fuel
  induction fuel with
  | zero =>
    intro st h
    rw [genLoop, genLoop]
    rw [if_neg]
    intro hguard
    have := hguard.2
    omega
  | succ n ih =>
    intro st h
    conv =>
      lhs
      rw [genLoop]
    conv =>
      rhs
      rw [genLoop]
    split
    · rename_i hguard
      apply ih
      have h2 := hguard.2
      rw [genStep_attempts]
      omega
    · rfl

theorem genLoop_add (ctx : GenCtx) :
    ∀ (k fuel : Nat) (st : GenState),
      (ctx.maxAttempts - st.attempts).toNat ≤ fuel →
      genLoop ctx (fuel + k) st = genLoop ctx fuel st := by
  intro k
  induction k with
  | zero => intro fuel st _; rfl
  | succ n ih =>
    intro fuel st h
    have : fuel + (n + 1) = (fuel + n) + 1 := by omega
    rw [this, genLoop_succ_eq ctx (fuel + n) st (by omega), ih fuel st h]

theorem genLoop_exit (ctx : GenCtx) :
    ∀ (fuel : Nat) (st : GenState),
      (ctx.maxAttempts - st.attempts).toNat ≤ fuel →
      ¬(((genLoop ctx fuel st).results.length : Int) < ctx.targetCount ∧
        ((genLoop ctx fuel st).attempts : Int) < ctx.maxAttempts) := by
  intro fuel
  induction fuel with
  | zero =>
    intro st h
    rw [genLoop]
    intro hguard
    have := hguard.2
    omega
  | succ n ih =>
    intro st h
    rw [genLoop]
    split
    · rename_i hguard
      apply ih
      have h2 := hguard.2
      rw [genStep_attempts]
      omega
    · rename_i hguard
      exact hguard

theorem initState_inv (ctx : GenCtx) (excludeSet : Finset String) :
    LoopInv ctx excludeSet
      { results := [], generated := excludeSet, attempts := 0, ridx := 0 } := by
  refine ⟨Finset.Subset.refl _, ?_, List.nodup_nil, ?_, ?_, rfl⟩
  · intro c hc; exact absurd hc (List.not_mem_nil _)
  · intro c hc; exact absurd hc (List.not_mem_nil _)
  · intro c hc; exact absurd hc (List.not_mem_nil _)

theorem genRun_inv (config : GenerationConfig) (options : Option GenerationOptions)
    (excludeSet : Finset String) (rng : Nat → Nat) :
    LoopInv (mkCtx config options excludeSet rng) excludeSet
      (genRun config options excludeSet rng) :=
  genLoop_inv _ _ _ _ (initState_inv _ _)

theorem generate_perm (config : GenerationConfig) (options : Option GenerationOptions)
    (excludeSet : Finset String) (rng : Nat → Nat) :
    (generatePhoneNumbers config options excludeSet rng).Perm
      (genRun config options excludeSet rng).results :=
  List.mergeSort_perm _ _

/-! ## Claim theorems -/

/-- C1: For every call to `generatePhoneNumbers` (any template, count,
density tier, exclusion set, and random draw sequence), the returned list
contains no two entities with the same number string, and no returned
entity's number is a member of the supplied exclusion set. -/
theorem generate_nodup_and_excludes (config : GenerationConfig)
    (options : Option GenerationOptions) (excludeSet : Finset String)
    (rng : Nat → Nat) :
    ((generatePhoneNumbers config options excludeSet rng).map
        GeneratedContact.number).Nodup ∧
    ∀ c ∈ generatePhoneNumbers config options excludeSet rng,
      c.number ∉ excludeSet := by
  obtain ⟨_, _, hnd, hnex, _, _⟩ := genRun_inv config options excludeSet rng
  have hperm := generate_perm config options excludeSet rng
  constructor
  · exact (List.Perm.nodup_iff (hperm.map GeneratedContact.number)).mpr hnd
  · intro c hc
    exact hnex c (hperm.mem_iff.mp hc)

theorem length_of_validateKind_none (p : String) (h : validateKind p = none) :
    p.length = 10 := by
  rw [validateKind] at h
  by_cases h0 : p.length = 0
  · rw [if_pos h0] at h
    exact absurd h (by simp)
  · rw [if_neg h0] at h
    by_cases h1 : p.length ≠ 10
    · rw [if_pos h1] at h
      exact absurd h (by simp)
    · push_neg at h1
      exact h1

/-- C2: For every call whose template passes `validatePattern`, every
returned entity's number has length exactly 10 and agrees with the
template character at every fixed (non-wildcard) position. -/
theorem generate_matches_template (config : GenerationConfig)
    (options : Option GenerationOptions) (excludeSet : Finset String)
    (rng : Nat → Nat) (h : validatePattern config.pattern none = none) :
    ∀ c ∈ generatePhoneNumbers config options excludeSet rng,
      c.number.length = 10 ∧
      ∀ i c', config.pattern.toList.get? i = some c' → c' ≠ '_' →
        c.number.toList.get? i = some c' := by
  have hk : validateKind config.pattern = none := by
    rw [validatePattern] at h
    exact Option.map_eq_none'.mp h
  have hlen := length_of_validateKind_none _ hk
  intro c hc
  obtain ⟨_, _, _, _, hform, _⟩ := genRun_inv config options excludeSet rng
  have hperm := generate_perm config options excludeSet rng
  obtain ⟨ds, hdslen, hok, hnum⟩ := hform c (hperm.mem_iff.mp hc)
  constructor
  · rw [hnum]
    show (splice config.pattern.toList ds).length = 10
    rw [splice_length]
    exact hlen
  · intro i c' hi hne
    rw [hnum]
    show (splice config.pattern.toList ds).get? i = some c'
    exact splice_get?_of_fixed _ _ _ _ hi hne

/-- C2 witness: a concrete valid template and draw sequence. -/
theorem generate_matches_template_witness :
    validatePattern "05_____1__" none = none ∧
    ∀ c ∈ generatePhoneNumbers ⟨"05_____1__", 1, "X"⟩ none ∅ (fun i => i),
      c.number.length = 10 ∧
      ∀ i c', ("05_____1__" : String).toList.get? i = some c' → c' ≠ '_' →
        c.number.toList.get? i = some c' :=
  ⟨by decide,
   generate_matches_template ⟨"05_____1__", 1, "X"⟩ none ∅ (fun i => i) (by decide)⟩

/-- C3: `validatePattern` applies its four checks in order with
short-circuiting: empty input, wrong length (carrying the length),
invalid characters (carrying the distinct offenders in first-seen
order), missing wildcard; otherwise success.  In particular
`validatePattern "05_____"` (7 characters) reports the length error
with actual length 7, and the rendered message is exactly the error
class mapped through `renderError`. -/
theorem validatePattern_checks (p : String) (o : Option GenerationOptions) :
    (validatePattern p o = (validateKind p).map renderError) ∧
    (p.length = 0 → validateKind p = some .emptyInput) ∧
    (p.length ≠ 0 → p.length ≠ 10 →
      validateKind p = some (.invalidLength p.length)) ∧
    (p.length = 10 → (∃ c ∈ p.toList, isAllowedChar c = false) →
      validateKind p = some (.invalidCharacters (firstDedup (invalidCharsOf p))) ∧
      (firstDedup (invalidCharsOf p)).Nodup ∧
      ∀ a, a ∈ firstDedup (invalidCharsOf p) ↔
        a ∈ p.toList ∧ isAllowedChar a = false) ∧
    (p.length = 10 → (∀ c ∈ p.toList, isAllowedChar c = true) →
      '_' ∉ p.toList → validateKind p = some .noVariableSlots) ∧
    (p.length = 10 → (∀ c ∈ p.toList, isAllowedChar c = true) →
      '_' ∈ p.toList → validateKind p = none) ∧
    validateKind "05_____" = some (.invalidLength 7) := by
  refine ⟨rfl, ?_, ?_, ?_, ?_, ?_, by decide⟩
  · intro h0
    rw [validateKind, if_pos h0]
  · intro h0 h1
    rw [validateKind, if_neg h0, if_pos h1]
  · intro h10 hex
    rcases hex with ⟨c, hc, hbad⟩
    have hne : invalidCharsOf p ≠ [] :=
      List.ne_nil_of_mem (List.mem_filter.mpr ⟨hc, by simp [hbad]⟩)
    refine ⟨?_, firstDedup_nodup _, ?_⟩
    · rw [validateKind, if_neg (by omega), if_neg (by omega), if_pos hne]
    · intro a
      rw [mem_firstDedup]
      unfold invalidCharsOf
      rw [List.mem_filter]
      simp
  · intro h10 hall hnw
    have hnil : invalidCharsOf p = [] := by
      unfold invalidCharsOf
      rw [List.filter_eq_nil_iff]
      intro a ha
      simp [hall a ha]
    rw [validateKind, if_neg (by omega), if_neg (by omega), if_neg (by simp [hnil]),
      if_pos (by simp; exact hnw)]
  · intro h10 hall hw
    have hnil : invalidCharsOf p = [] := by
      unfold invalidCharsOf
      rw [List.filter_eq_nil_iff]
      intro a ha
      simp [hall a ha]
    rw [validateKind, if_neg (by omega), if_neg (by omega), if_neg (by simp [hnil]),
      if_neg (by simp; exact hw)]

/-- C3 witness: the wrong-length branch at a concrete 3-character
template. -/
theorem validatePattern_checks_witness :
    (("abc" : String).length ≠ 0 ∧ ("abc" : String).length ≠ 10) ∧
    validateKind "abc" = some (.invalidLength 3) :=
  ⟨by decide, (validatePattern_checks "abc" none).2.2.1 (by decide) (by decide)⟩

/-- Shared helper: a non-positive effective target produces the empty
list. -/
theorem generate_eq_nil_of_target_nonpos (config : GenerationConfig)
    (options : Option GenerationOptions) (excludeSet : Finset String)
    (rng : Nat → Nat) (hT : targetCountOf config excludeSet ≤ 0) :
    generatePhoneNumbers config options excludeSet rng = [] := by
  have hrun : genRun config options excludeSet rng =
      { results := [], generated := excludeSet, attempts := 0, ridx := 0 } :=
    genLoop_of_target_nonpos (mkCtx config options excludeSet rng) hT _ excludeSet 0 0
  rw [generatePhoneNumbers, hrun]
  exact List.mergeSort_nil

/-- C4: the number of returned entities is at most
`min(count, max(0, 10^numUnknowns - |exclusionSet|))` (stated for the
meaningful regime `count ≥ 0`; a negative `count` falls under the
second part), and a non-positive effective target yields the empty
list. -/
theorem generate_count_bound (config : GenerationConfig)
    (options : Option GenerationOptions) (excludeSet : Finset String)
    (rng : Nat → Nat) :
    (0 ≤ config.count →
      ((generatePhoneNumbers config options excludeSet rng).length : Int) ≤
        min config.count
          (max 0 ((10 : Int) ^ numUnknownsOf config.pattern - excludeSet.card))) ∧
    (min config.count
        (max 0 ((10 : Int) ^ numUnknownsOf config.pattern - excludeSet.card)) ≤ 0 →
      generatePhoneNumbers config options excludeSet rng = []) := by
  have hperm := generate_perm config options excludeSet rng
  constructor
  · intro hc
    have hlen : ((genRun config options excludeSet rng).results.length : Int) ≤
        max 0 (targetCountOf config excludeSet) :=
      genLoop_length (mkCtx config options excludeSet rng)
        (maxAttemptsOf config excludeSet).toNat
        { results := [], generated := excludeSet, attempts := 0, ridx := 0 }
        (by simp)
    have h0 : (0 : Int) ≤ targetCountOf config excludeSet := by
      rw [targetCountOf]
      exact le_min hc (le_max_left _ _)
    rw [hperm.length_eq]
    have hmax : max 0 (targetCountOf config excludeSet) =
        targetCountOf config excludeSet := max_eq_right h0
    rw [hmax] at hlen
    exact hlen
  · intro hT
    exact generate_eq_nil_of_target_nonpos config options excludeSet rng hT

/-- C4 witness: a call with `count = 0` hits both parts. -/
theorem generate_count_bound_witness :
    (0 ≤ (0 : Int) ∧
      min (0 : Int)
        (max 0 ((10 : Int) ^ numUnknownsOf "05________" -
          (∅ : Finset String).card)) ≤ 0) ∧
    ((generatePhoneNumbers ⟨"05________", 0, "X"⟩ none ∅ (fun i => i)).length : Int) ≤
      min (0 : Int)
        (max 0 ((10 : Int) ^ numUnknownsOf "05________" -
          (∅ : Finset String).card)) ∧
    generatePhoneNumbers ⟨"05________", 0, "X"⟩ none ∅ (fun i => i) = [] :=
  ⟨⟨le_refl 0, by decide⟩,
   (generate_count_bound ⟨"05________", 0, "X"⟩ none ∅ (fun i => i)).1 (by decide),
   (generate_count_bound ⟨"05________", 0, "X"⟩ none ∅ (fun i => i)).2 (by decide)⟩

/-- C5 (amended): the id fields of the returned entities are the
provisional sequence numbers `initialSize+1, …, initialSize+n` as
strings (up to the final sort's reordering), where `initialSize` is the
size of the supplied exclusion set — they are 1-based only when the
exclusion set is empty. -/
theorem generate_ids_sequence (config : GenerationConfig)
    (options : Option GenerationOptions) (excludeSet : Finset String)
    (rng : Nat → Nat) :
    ((generatePhoneNumbers config options excludeSet rng).map
        GeneratedContact.id).Perm
      ((List.range (generatePhoneNumbers config options excludeSet rng).length).map
        (fun i => toString (excludeSet.card + i + 1))) := by
  obtain ⟨_, _, _, _, _, hids⟩ := genRun_inv config options excludeSet rng
  have hperm := generate_perm config options excludeSet rng
  have h1 := hperm.map GeneratedContact.id
  rw [hids] at h1
  rw [hperm.length_eq]
  exact h1

/-- C5 counterexample: with exclusion set `{"x"}` (size 1) the single
returned entity has id `"2"`, not `"1"`: the ids are not the strings
`"1", …, "n"`. -/
theorem generate_ids_not_one_based :
    (generatePhoneNumbers ⟨"000000000_", 1, "X"⟩ none {"x"} (fun _ => 0)).map
        GeneratedContact.id = ["2"] ∧
    (generatePhoneNumbers ⟨"000000000_", 1, "X"⟩ none {"x"} (fun _ => 0)).map
        GeneratedContact.id ≠
      (List.range (generatePhoneNumbers ⟨"000000000_", 1, "X"⟩ none {"x"}
          (fun _ => 0)).length).map (fun i => toString (i + 1)) := by
  have hrun : (genRun ⟨"000000000_", 1, "X"⟩ none {"x"} (fun _ => 0)).results =
      [{ id := "2", number := "0000000000", name := "X", isSaved := false }] := by
    decide
  have hgen : generatePhoneNumbers ⟨"000000000_", 1, "X"⟩ none {"x"} (fun _ => 0) =
      [{ id := "2", number := "0000000000", name := "X", isSaved := false }] := by
    rw [generatePhoneNumbers, hrun]
    exact List.mergeSort_singleton _
  rw [hgen]
  constructor
  · rfl
  · decide

/-- C6: with a strict density tier (`≤ 0.4`) and 8 wildcard slots, no
returned value repeats any digit more than `max(2, ⌈8·0.35⌉) = 3` times
among its wildcard-filled positions, and no two consecutive wildcard
slots hold the same digit. -/
theorem generate_strict_density (config : GenerationConfig)
    (options : Option GenerationOptions) (excludeSet : Finset String)
    (rng : Nat → Nat) (hd : densityOf options ≤ mkRat 4 10)
    (hu : numUnknownsOf config.pattern = 8) :
    ∀ c ∈ generatePhoneNumbers config options excludeSet rng,
      (∀ ch : Char,
        (wildcardChars config.pattern.toList c.number.toList).count ch ≤ 3) ∧
      (wildcardChars config.pattern.toList c.number.toList).Chain' (· ≠ ·) := by
  intro c hc
  obtain ⟨_, _, _, _, hform, _⟩ := genRun_inv config options excludeSet rng
  have hperm := generate_perm config options excludeSet rng
  obtain ⟨ds, hdslen, hok, hnum⟩ := hform c (hperm.mem_iff.mp hc)
  have hprof : (mkCtx config options excludeSet rng).prof =
      { maxDigitFreq := 3, allowAdjacentDuplicates := false,
        allowSequences := false } := by
    show constraintProfile (densityOf options) (numUnknownsOf config.pattern) = _
    rw [hu, constraintProfile, if_pos hd]
    decide
  rw [hprof] at hok
  obtain ⟨hcnt, hadj, hb10⟩ := hok
  have hwc : wildcardChars config.pattern.toList c.number.toList =
      ds.map Nat.digitChar := by
    rw [hnum]
    show wildcardChars config.pattern.toList
      (splice config.pattern.toList ds) = _
    exact wildcardChars_splice _ _ hdslen
  rw [hwc]
  exact ⟨count_map_digitChar ds 3 hb10 hcnt,
    chain_ne_map_digitChar ds hb10 (hadj rfl)⟩

/-- C6 witness: a concrete strict-tier call on a template with 8
wildcards. -/
theorem generate_strict_density_witness :
    (densityOf none ≤ mkRat 4 10 ∧ numUnknownsOf "05________" = 8) ∧
    ∀ c ∈ generatePhoneNumbers ⟨"05________", 1, "X"⟩ none ∅ (fun i => i),
      (∀ ch : Char,
        (wildcardChars ("05________" : String).toList c.number.toList).count ch ≤ 3) ∧
      (wildcardChars ("05________" : String).toList c.number.toList).Chain' (· ≠ ·) :=
  ⟨⟨by decide, by decide⟩,
   generate_strict_density ⟨"05________", 1, "X"⟩ none ∅ (fun i => i)
     (by decide) (by decide)⟩

/-- C7: the returned list is sorted ascending by the number string
(lexicographic order on the digit strings). -/
theorem generate_sorted (config : GenerationConfig)
    (options : Option GenerationOptions) (excludeSet : Finset String)
    (rng : Nat → Nat) :
    (generatePhoneNumbers config options excludeSet rng).Pairwise
      (fun a b => a.number ≤ b.number) := by
  have h : ((genRun config options excludeSet rng).results.mergeSort
      (fun a b => decide (a.number ≤ b.number))).Pairwise
      (fun a b : GeneratedContact => decide (a.number ≤ b.number) = true) := by
    apply List.sorted_mergeSort
    · intro a b c hab hbc
      simp only [decide_eq_true_eq] at hab hbc ⊢
      exact le_trans hab hbc
    · intro a b
      rcases le_total a.number b.number with h | h <;> simp [h]
  exact List.Pairwise.imp (fun hab => by simpa using hab) h

/-- C8: every call terminates within the attempt cap: the loop result is
unchanged by any extra fuel beyond `targetCount * 200 + 5000` iterations
(the attempt counter strictly increases each iteration), the final
attempt count is bounded by that cap, and on exit the loop guard is
false — the accepted count reached the target or the attempts reached
the cap. -/
theorem generate_terminates (config : GenerationConfig)
    (options : Option GenerationOptions) (excludeSet : Finset String)
    (rng : Nat → Nat) :
    (∀ extra : Nat,
      genLoop (mkCtx config options excludeSet rng)
        ((maxAttemptsOf config excludeSet).toNat + extra)
        { results := [], generated := excludeSet, attempts := 0, ridx := 0 } =
      genRun config options excludeSet rng) ∧
    (genRun config options excludeSet rng).attempts ≤
      (maxAttemptsOf config excludeSet).toNat ∧
    ¬(((genRun config options excludeSet rng).results.length : Int) <
        targetCountOf config excludeSet ∧
      ((genRun config options excludeSet rng).attempts : Int) <
        maxAttemptsOf config excludeSet) := by
  refine ⟨?_, ?_, ?_⟩
  · intro extra
    exact genLoop_add (mkCtx config options excludeSet rng) extra
      (maxAttemptsOf config excludeSet).toNat
      { results := [], generated := excludeSet, attempts := 0, ridx := 0 }
      (by show (maxAttemptsOf config excludeSet - ((0 : Nat) : Int)).toNat ≤
            (maxAttemptsOf config excludeSet).toNat
          omega)
  · have h := genLoop_attempts (mkCtx config options excludeSet rng)
      (maxAttemptsOf config excludeSet).toNat
      { results := [], generated := excludeSet, attempts := 0, ridx := 0 }
    simpa using h
  · exact genLoop_exit (mkCtx config options excludeSet rng)
      (maxAttemptsOf config excludeSet).toNat
      { results := [], generated := excludeSet, attempts := 0, ridx := 0 }
      (by show (maxAttemptsOf config excludeSet - ((0 : Nat) : Int)).toNat ≤
            (maxAttemptsOf config excludeSet).toNat
          omega)

/-- C9: the feasibility cap subtracts the full exclusion-set size with
no membership check against the template's value space: whenever
`|exclusionSet| ≥ 10^numUnknowns` the call returns the empty list, even
when the exclusion set is disjoint from the template's value space. -/
theorem generate_blocked_by_exclusion_size (config : GenerationConfig)
    (options : Option GenerationOptions) (excludeSet : Finset String)
    (rng : Nat → Nat)
    (h : (10 : Int) ^ numUnknownsOf config.pattern ≤ excludeSet.card) :
    generatePhoneNumbers config options excludeSet rng = [] := by
  apply generate_eq_nil_of_target_nonpos
  rw [targetCountOf]
  have h1 : max 0 ((10 : Int) ^ numUnknownsOf config.pattern - excludeSet.card) = 0 := by
    rw [max_eq_left]
    omega
  rw [h1]
  exact min_le_right _ _

/-- C9 witness: ten excluded strings, none of which lies in the value
space of the one-wildcard template, still force an empty result for a
request of 5. -/
theorem generate_blocked_by_exclusion_size_witness :
    (10 : Int) ^ numUnknownsOf "000000000_" ≤
      (({"a0", "a1", "a2", "a3", "a4", "a5", "a6", "a7", "a8", "a9"} :
        Finset String)).card ∧
    generatePhoneNumbers ⟨"000000000_", 5, "X"⟩ none
      {"a0", "a1", "a2", "a3", "a4", "a5", "a6", "a7", "a8", "a9"}
      (fun i => i) = [] :=
  ⟨by decide,
   generate_blocked_by_exclusion_size ⟨"000000000_", 5, "X"⟩ none
     {"a0", "a1", "a2", "a3", "a4", "a5", "a6", "a7", "a8", "a9"}
     (fun i => i) (by decide)⟩

/-- C10: the local acceptance checks consult only previously placed
wildcard digits, never the template's fixed digits.  Two concrete
strict-tier calls witness the consequence: the first returns a value
with equal adjacent characters across a wildcard/fixed boundary (both
positions 0 and 1 hold '0'), the second returns a value opening with
the ascending consecutive triple 1,2,3 across fixed digits '2','3' —
both despite `allowAdjacentDuplicates`/`allowSequences` being false. -/
theorem generate_checks_ignore_fixed_digits :
    ((mkCtx ⟨"_000000000", 1, "X"⟩ none ∅
        (fun _ => 0)).prof.allowAdjacentDuplicates = false ∧
      (generatePhoneNumbers ⟨"_000000000", 1, "X"⟩ none ∅ (fun _ => 0)).map
        GeneratedContact.number = ["0000000000"] ∧
      ("0000000000" : String).toList.get? 0 = ("0000000000" : String).toList.get? 1) ∧
    ((mkCtx ⟨"_23_______", 1, "X"⟩ none ∅
        (fun i => [1, 5, 0, 7, 2, 9, 4, 8].getD i 0)).prof.allowSequences = false ∧
      (generatePhoneNumbers ⟨"_23_______", 1, "X"⟩ none ∅
        (fun i => [1, 5, 0, 7, 2, 9, 4, 8].getD i 0)).map
          GeneratedContact.number = ["1235072948"] ∧
      ("1235072948" : String).toList.take 3 = ['1', '2', '3']) := by
  have hrun1 : (genRun ⟨"_000000000", 1, "X"⟩ none ∅ (fun _ => 0)).results =
      [{ id := "1", number := "0000000000", name := "X", isSaved := false }] := by
    decide
  have hgen1 : generatePhoneNumbers ⟨"_000000000", 1, "X"⟩ none ∅ (fun _ => 0) =
      [{ id := "1", number := "0000000000", name := "X", isSaved := false }] := by
    rw [generatePhoneNumbers, hrun1]
    exact List.mergeSort_singleton _
  have hrun2 : (genRun ⟨"_23_______", 1, "X"⟩ none ∅
      (fun i => [1, 5, 0, 7, 2, 9, 4, 8].getD i 0)).results =
      [{ id := "1", number := "1235072948", name := "X", isSaved := false }] := by
    decide
  have hgen2 : generatePhoneNumbers ⟨"_23_______", 1, "X"⟩ none ∅
      (fun i => [1, 5, 0, 7, 2, 9, 4, 8].getD i 0) =
      [{ id := "1", number := "1235072948", name := "X", isSaved := false }] := by
    rw [generatePhoneNumbers, hrun2]
    exact List.mergeSort_singleton _
  refine ⟨⟨by decide, ?_, by decide⟩, ⟨by decide, ?_, by decide⟩⟩
  · rw [hgen1]
    rfl
  · rw [hgen2]
    rfl
